import Mathlib

/-!
Shallow embedding of the Shepherd configuration-management core
(`src/database.py` and `src/webhooks.py`) and proofs about its
versioned-configuration store and webhook dispatch logic.

The MongoDB collection is modelled as a list of documents in insertion
order; `find_one` with an equality filter is `List.find?`, `find_one`
with a descending sort on `version` is a fold selecting the
maximum-version document, and the unique index on `(config_id, version)`
is modelled inside `insert_one`.  Timestamps (`datetime.utcnow`) are
passed in as explicit `now` arguments.
-/

deriving instance DecidableEq for Except

namespace Shepherd

mutual
/-- JSON values, the type of the `settings` field. -/
inductive Json where
  | null : Json
  | bool (b : Bool) : Json
  | num (n : Int) : Json
  | str (s : String) : Json
  | arr (elems : JsonList) : Json
  | obj (fields : JsonFields) : Json
  deriving DecidableEq
/-- A JSON array's elements. -/
inductive JsonList where
  | nil : JsonList
  | cons (hd : Json) (tl : JsonList) : JsonList
  deriving DecidableEq
/-- A JSON object's key/value fields. -/
inductive JsonFields where
  | nil : JsonFields
  | cons (key : String) (val : Json) (tl : JsonFields) : JsonFields
  deriving DecidableEq
end

/-- One stored configuration document (the `configurations` collection schema
written by `create_config` / `update_config` / `rollback_config`).  The
store-assigned `_id` surrogate is not modelled: no claim depends on it. -/
structure Doc where
  config_id : String
  version : Nat
  app_name : String
  environment : String
  settings : Json
  created_at : String
  updated_at : String
  updated_by : Option String
  change_notes : String
  deriving DecidableEq

/-- The collection, in insertion order. -/
abbrev State := List Doc

/-- Python exception classes raised by `ConfigurationManager` methods. -/
inductive PyError where
  | valueError (msg : String) : PyError
  | runtimeError (msg : String) : PyError
  deriving DecidableEq

/-- Caller-supplied `config_data` for `create_config`, with all four
required fields present (`create_config` only checks field presence,
which is always satisfied for this record type). -/
structure ConfigData where
  config_id : String
  app_name : String
  environment : String
  settings : Json
  deriving DecidableEq

/-- `collection.insert_one` under the unique index on
`(config_id, version)`: `none` models a raised `DuplicateKeyError`. -/
def insert_one (s : State) (d : Doc) : Option State :=
  if s.any (fun e => e.config_id == d.config_id && e.version == d.version) then
    none
  else
    some (s ++ [d])

/-- `collection.find_one({"config_id": cid, "version": v})`: first match in
insertion order. -/
def find_version (s : State) (cid : String) (v : Nat) : Option Doc :=
  s.find? (fun d => d.config_id == cid && d.version == v)

/-- All documents of one `config_id`, in insertion order. -/
def byId (s : State) (cid : String) : List Doc :=
  s.filter (fun d => d.config_id == cid)

/-- One step of the maximum-`version` selection fold. -/
def latestStep (acc : Option Doc) (d : Doc) : Option Doc :=
  match acc with
  | none => some d
  | some m => if m.version < d.version then some d else some m

/-- Fold selecting the maximum-`version` document of a list (the effect of
`find_one(filter, sort=[("version", DESCENDING)])`). -/
def foldLatest (l : List Doc) : Option Doc :=
  l.foldl latestStep none

/-- `ConfigurationManager.get_latest_config`. -/
def get_latest_config (s : State) (cid : String) : Option Doc :=
  foldLatest (byId s cid)

/-- `ConfigurationManager.create_config`, split so that the pre-check read
and the insert may see different states (modelling the race the unique
index guards against; the sequential call is `create_config` below).
Mirrors the Python control flow: the pre-check raises `ValueError`, which
the method's own `except Exception` handler re-wraps into `RuntimeError`,
while a `DuplicateKeyError` from the insert is translated to `ValueError`
by the dedicated handler. -/
def create_config_interleaved (sRead sNow : State) (cd : ConfigData)
    (updated_by : Option String) (change_notes : Option String) (now : String) :
    Except PyError (State × Doc) :=
  match sRead.find? (fun e => e.config_id == cd.config_id) with
  | some _ =>
      -- raise ValueError(already exists): caught by `except Exception`,
      -- re-raised as RuntimeError(f"Failed to create configuration: {e}")
      .error (.runtimeError
        ("Failed to create configuration: Configuration with config_id '"
          ++ cd.config_id ++ "' already exists"))
  | none =>
      let d : Doc :=
        { config_id := cd.config_id
          version := 1
          app_name := cd.app_name
          environment := cd.environment
          settings := cd.settings
          created_at := now
          updated_at := now
          updated_by := updated_by
          change_notes := change_notes.getD "Initial configuration creation" }
      match insert_one sNow d with
      | none =>
          -- except DuplicateKeyError: raise ValueError(already exists)
          .error (.valueError
            ("Configuration with config_id '" ++ cd.config_id
              ++ "' already exists"))
      | some s2 => .ok (s2, d)

/-- `ConfigurationManager.create_config` called sequentially (pre-check and
insert see the same state). -/
def create_config (s : State) (cd : ConfigData) (updated_by : Option String)
    (change_notes : Option String) (now : String) : Except PyError (State × Doc) :=
  create_config_interleaved s s cd updated_by change_notes now

/-- `ConfigurationManager.update_config`. -/
def update_config (s : State) (cid : String) (new_settings : Json)
    (updated_by : Option String) (change_notes : Option String) (now : String) :
    Except PyError (State × Doc) :=
  match get_latest_config s cid with
  | none =>
      .error (.valueError
        ("Configuration with config_id '" ++ cid ++ "' not found"))
  | some latest =>
      let d : Doc :=
        { config_id := cid
          version := latest.version + 1
          app_name := latest.app_name
          environment := latest.environment
          settings := new_settings
          created_at := latest.created_at
          updated_at := now
          updated_by := updated_by
          change_notes := change_notes.getD "Configuration updated" }
      match insert_one s d with
      | none =>
          -- a DuplicateKeyError here falls into `except Exception` and is
          -- wrapped; the driver's message is abbreviated to its class name
          .error (.runtimeError "Failed to update configuration: DuplicateKeyError")
      | some s2 => .ok (s2, d)

/-- `ConfigurationManager.rollback_config`. -/
def rollback_config (s : State) (cid : String) (target_version : Nat)
    (updated_by : String) (change_notes : Option String) (now : String) :
    Except PyError (State × Doc) :=
  match find_version s cid target_version with
  | none =>
      .error (.valueError
        ("Version " ++ toString target_version ++ " not found for config_id '"
          ++ cid ++ "'"))
  | some target =>
      match get_latest_config s cid with
      | none =>
          .error (.valueError ("Configuration '" ++ cid ++ "' not found"))
      | some latest =>
          let d : Doc :=
            { config_id := cid
              version := latest.version + 1
              app_name := target.app_name
              environment := target.environment
              settings := target.settings
              created_at := target.created_at
              updated_at := now
              updated_by := some updated_by
              change_notes :=
                change_notes.getD
                  ("Rolled back to version " ++ toString target_version) }
          match insert_one s d with
          | none =>
              .error (.runtimeError "Failed to rollback configuration: DuplicateKeyError")
          | some s2 => .ok (s2, d)

/-- `ConfigurationManager.delete_config`: delete all versions of a
`config_id`, returning the new state and the deleted count. -/
def delete_config (s : State) (cid : String) : State × Nat :=
  let kept := s.filter (fun d => !(d.config_id == cid))
  (kept, s.length - kept.length)

/-- `ConfigurationManager.get_config_version`.  The `fail` argument models
the store raising an exception during `find_one` (connection loss,
timeout); the Python body catches every exception and returns `None`. -/
def get_config_version (s : State) (fail : Option String) (cid : String)
    (v : Nat) : Option Doc :=
  match fail with
  | some _ => none  -- except Exception: return None
  | none => find_version s cid v

/-- A write intent against the store (argument bundle of one
`ConfigurationManager` write method). -/
inductive Op where
  | create (cd : ConfigData) (updated_by change_notes : Option String) (now : String) : Op
  | update (cid : String) (new_settings : Json)
      (updated_by change_notes : Option String) (now : String) : Op
  | rollback (cid : String) (target_version : Nat) (updated_by : String)
      (change_notes : Option String) (now : String) : Op

/-- Run one write method on the collection. -/
def applyOp (s : State) : Op → Except PyError (State × Doc)
  | .create cd ub cn now => create_config s cd ub cn now
  | .update cid ns ub cn now => update_config s cid ns ub cn now
  | .rollback cid tv ub cn now => rollback_config s cid tv ub cn now

/-- The collection after attempting one write: a raised exception leaves
the collection unchanged (every error path raises before inserting). -/
def runOp (s : State) (op : Op) : State :=
  match applyOp s op with
  | .ok (s2, _) => s2
  | .error _ => s

/-- States reachable from the empty collection by successful
create/update/rollback calls. -/
inductive Reachable : State → Prop where
  | init : Reachable []
  | create {s s' : State} {cd : ConfigData} {ub cn : Option String}
      {now : String} {d : Doc} : Reachable s →
      create_config s cd ub cn now = .ok (s', d) → Reachable s'
  | update {s s' : State} {cid : String} {ns : Json} {ub cn : Option String}
      {now : String} {d : Doc} : Reachable s →
      update_config s cid ns ub cn now = .ok (s', d) → Reachable s'
  | rollback {s s' : State} {cid : String} {tv : Nat} {ub : String}
      {cn : Option String} {now : String} {d : Doc} : Reachable s →
      rollback_config s cid tv ub cn now = .ok (s', d) → Reachable s'

/-- The version numbers stored for a `config_id`, in insertion order. -/
def versionsOf (s : State) (cid : String) : List Nat :=
  (byId s cid).map (fun d => d.version)

/-- Per-`config_id` version sequence invariant: the stored versions are
exactly `1, 2, ..., N` in insertion order, `N` being the number of
documents (equivalently, of successful writes) for that `config_id`. -/
def VersionsOK (s : State) : Prop :=
  ∀ cid, versionsOf s cid = List.range' 1 (versionsOf s cid).length

/-- `app_name`, `environment`, `created_at` agree across every pair of
documents sharing a `config_id`. -/
def FieldsConst (s : State) : Prop :=
  ∀ d ∈ s, ∀ e ∈ s, d.config_id = e.config_id →
    d.app_name = e.app_name ∧ d.environment = e.environment ∧
    d.created_at = e.created_at

/-! ### `query_configs` (aggregation pipeline) -/

/-- The `$match` criteria of `query_configs`: Python adds a filter key only
when the argument is truthy (`if app_name:`), so `None` and the empty
string both mean "no filter". -/
def matchCriteria (app_name environment : Option String) (d : Doc) : Bool :=
  (match app_name with
   | some a => if a = "" then true else d.app_name == a
   | none => true) &&
  (match environment with
   | some e => if e = "" then true else d.environment == e
   | none => true)

/-- Spec-side filter predicate, following the spec's words: a provided
`appName`/`environment` filter means string equality on that field
(`queryLatestPerConfig` "optionally pre-filtered by appName/environment
equality").  Differs from `matchCriteria` exactly on empty-string
filters, which Python truthiness silently drops. -/
def specMatches (app_name environment : Option String) (d : Doc) : Bool :=
  (match app_name with
   | some a => d.app_name == a
   | none => true) &&
  (match environment with
   | some e => d.environment == e
   | none => true)

/-- Insert a string into an ascending list (ordering step of the
pipeline's final `$sort {config_id: 1}`). -/
def insertAsc (x : String) : List String → List String
  | [] => [x]
  | y :: ys => if x ≤ y then x :: y :: ys else y :: insertAsc x ys

/-- Sort strings ascending. -/
def sortAsc : List String → List String
  | [] => []
  | x :: xs => insertAsc x (sortAsc xs)

/-- The distinct `config_id`s of a document list (the `$group` keys),
first occurrences kept. -/
def distinctIds (l : List Doc) : List String :=
  (l.map (fun d => d.config_id)).dedup

/-- `ConfigurationManager.query_configs`: `$match` on the truthy filters,
then per `config_id` keep the maximum-version document (`$sort` by
`(config_id, -version)` + `$group`/`$first`), then `$sort` ascending by
`config_id`. -/
def query_configs (s : State) (app_name environment : Option String) :
    List Doc :=
  let matched := s.filter (matchCriteria app_name environment)
  (sortAsc (distinctIds matched)).filterMap
    (fun cid => foldLatest (byId matched cid))

/-! ### Webhook dispatch (`src/webhooks.py`)

An outbound delivery attempt is modelled by its observable outcome: the
HTTP status code, or `none` when `requests.post` raised (connection
failure, timeout).  The environment is a function `responses : Nat →
Option Nat` giving the outcome of the i-th attempt of a delivery. -/

/-- `WebhookConfig` dataclass. -/
structure WebhookConfig where
  url : String
  events : List String
  secret : Option String := none
  enabled : Bool := true
  timeout : Nat := 10
  retry_attempts : Nat := 3
  retry_delay : Nat := 1
  deriving DecidableEq

/-- The dictionary returned by `dispatch_webhook`: `success` is true
exactly for a 2xx status; a raised exception yields `status_code = None`
and `success = False`. -/
structure DispatchResult where
  status_code : Option Nat
  success : Bool
  deriving DecidableEq

/-- `dispatch_webhook` restricted to its observable outcome. -/
def dispatch_webhook_result (resp : Option Nat) : DispatchResult :=
  { status_code := resp
    success := match resp with
      | some c => decide (200 ≤ c) && decide (c < 300)
      | none => false }

/-- The condition under which `dispatch_with_retry` raises
`requests.ConnectionError` (making tenacity retry): not successful, and
either no status code or a 5xx status. -/
def retryDecision (r : DispatchResult) : Bool :=
  !r.success &&
    (match r.status_code with
     | none => true
     | some c => decide (500 ≤ c))

/-- The tenacity retry loop around `dispatch_webhook`: attempt `i`, retry
while the attempt raises a retryable error and fuel remains, raise
`RetryError` when the `stop_after_attempt` budget is exhausted.  Returns
the outcome together with the number of attempts performed. -/
def tenacityLoop (responses : Nat → Option Nat) (i : Nat) :
    Nat → Except String DispatchResult × Nat
  | 0 => (.error "RetryError", 0)
  | fuel + 1 =>
    let r := dispatch_webhook_result (responses i)
    if retryDecision r then
      match fuel with
      | 0 => (.error "RetryError", 1)
      | f + 1 =>
        let next := tenacityLoop responses (i + 1) (f + 1)
        (next.1, next.2 + 1)
    else
      (.ok r, 1)

/-- `dispatch_with_retry`: the decorator is
`@retry(stop=stop_after_attempt(3), wait=wait_exponential(...), ...)` —
the attempt budget is the literal 3; `webhook_config.retry_attempts` is
never consulted. -/
def dispatch_with_retry (webhook_config : WebhookConfig)
    (responses : Nat → Option Nat) : Except String DispatchResult :=
  (tenacityLoop responses 0 3).1

/-- Number of HTTP attempts `dispatch_with_retry` performs. -/
def attempts_made (webhook_config : WebhookConfig)
    (responses : Nat → Option Nat) : Nat :=
  (tenacityLoop responses 0 3).2

/-- Per-subscriber cumulative delivery counters
(`webhook_manager.stats[url]`). -/
structure Stats where
  success : Nat
  failure : Nat
  deriving DecidableEq

/-- The `_dispatch` closure run by the delivery thread of
`dispatch_webhook_async`: call `dispatch_with_retry`; when it returns,
increment exactly one counter; when it raises (`RetryError` after the
attempt budget is exhausted) the uncaught exception kills the thread
before the stats update, leaving both counters unchanged. -/
def dispatch_task (webhook_config : WebhookConfig)
    (responses : Nat → Option Nat) (st : Stats) : Stats :=
  match dispatch_with_retry webhook_config responses with
  | .error _ => st
  | .ok r =>
      if r.success then { st with success := st.success + 1 }
      else { st with failure := st.failure + 1 }

/-! ### Example data used by witnesses and counterexamples -/

/-- Example settings `{"a": 1}`. -/
def exSettings1 : Json := .obj (.cons "a" (.num 1) .nil)

/-- Example settings `{"a": 2}`. -/
def exSettings2 : Json := .obj (.cons "a" (.num 2) .nil)

/-- Example creation payload. -/
def exCd : ConfigData :=
  { config_id := "cfg1", app_name := "appX", environment := "dev", settings := exSettings1 }

/-- The document `create_config` writes for `exCd` at time `"t1"`. -/
def exDoc1 : Doc :=
  { config_id := "cfg1", version := 1, app_name := "appX", environment := "dev"
    settings := exSettings1, created_at := "t1", updated_at := "t1"
    updated_by := some "alice", change_notes := "Initial configuration creation" }

/-- The document `update_config` writes on top of `exDoc1` at time `"t2"`. -/
def exDoc2 : Doc :=
  { config_id := "cfg1", version := 2, app_name := "appX", environment := "dev"
    settings := exSettings2, created_at := "t1", updated_at := "t2"
    updated_by := some "bob", change_notes := "Configuration updated" }

/-- The document `rollback_config cfg1 1` writes on top of `exDoc2` at
time `"t3"`. -/
def exDoc3 : Doc :=
  { config_id := "cfg1", version := 3, app_name := "appX", environment := "dev"
    settings := exSettings1, created_at := "t1", updated_at := "t3"
    updated_by := some "carol", change_notes := "Rolled back to version 1" }

/-- State after the example create. -/
def exS1 : State := [exDoc1]

/-- State after the example create + update. -/
def exS2 : State := [exDoc1, exDoc2]

/-- A webhook subscriber configured with `retry_attempts = 5`. -/
def exCfg5 : WebhookConfig :=
  { url := "https://example.test/hook", events := ["config.created"], retry_attempts := 5 }

/-- A webhook subscriber with the default `retry_attempts = 3`. -/
def exCfg3 : WebhookConfig :=
  { url := "https://example.test/hook", events := ["config.created"] }

/-- A remote that answers 500 Internal Server Error to every attempt. -/
def always500 : Nat → Option Nat := fun _ => some 500

/-- A remote that answers 500 twice, then 200. -/
def failTwiceThen200 : Nat → Option Nat :=
  fun i => if i < 2 then some 500 else some 200

/-- A remote that answers 404 Not Found immediately. -/
def always404 : Nat → Option Nat := fun _ => some 404

/-! ## Lemmas -/

theorem mem_byId {s : State} {cid : String} {d : Doc} :
    d ∈ byId s cid ↔ d ∈ s ∧ d.config_id = cid := by
  simp [byId, List.mem_filter]

theorem byId_append (s : State) (d : Doc) (cid : String) :
    byId (s ++ [d]) cid = byId s cid ++ (if d.config_id = cid then [d] else []) := by
  simp only [byId, List.filter_append]
  by_cases hd : d.config_id = cid
  · simp [hd]
  · simp [hd]

theorem versionsOf_append (s : State) (d : Doc) (cid : String) :
    versionsOf (s ++ [d]) cid =
      versionsOf s cid ++ (if d.config_id = cid then [d.version] else []) := by
  simp only [versionsOf, byId_append, List.map_append]
  by_cases hd : d.config_id = cid
  · simp [hd]
  · simp [hd]

theorem foldLatest_go (l : List Doc) (m : Doc) :
    ∃ d, l.foldl latestStep (some m) = some d ∧ (d = m ∨ d ∈ l) ∧
      m.version ≤ d.version ∧ ∀ e ∈ l, e.version ≤ d.version := by
  induction l generalizing m with
  | nil => exact ⟨m, rfl, Or.inl rfl, le_refl _, by simp⟩
  | cons x xs ih =>
    simp only [List.foldl_cons]
    by_cases hx : m.version < x.version
    · obtain ⟨d, hd, hmem, hle, hmax⟩ := ih x
      refine ⟨d, by simpa [latestStep, hx] using hd, ?_, ?_, ?_⟩
      · rcases hmem with h | h
        · exact Or.inr (by simp [h])
        · exact Or.inr (List.mem_cons_of_mem _ h)
      · exact le_of_lt (lt_of_lt_of_le hx hle)
      · intro e he
        rcases List.mem_cons.mp he with h | h
        · exact h ▸ hle
        · exact hmax e h
    · obtain ⟨d, hd, hmem, hle, hmax⟩ := ih m
      refine ⟨d, by simpa [latestStep, hx] using hd, ?_, hle, ?_⟩
      · rcases hmem with h | h
        · exact Or.inl h
        · exact Or.inr (List.mem_cons_of_mem _ h)
      · intro e he
        rcases List.mem_cons.mp he with h | h
        · exact h ▸ le_trans (Nat.le_of_not_lt hx) hle
        · exact hmax e h

theorem foldLatest_cons (x : Doc) (xs : List Doc) :
    foldLatest (x :: xs) = xs.foldl latestStep (some x) := by
  simp [foldLatest, latestStep]

theorem foldLatest_spec {l : List Doc} (h : l ≠ []) :
    ∃ d, foldLatest l = some d ∧ d ∈ l ∧ ∀ e ∈ l, e.version ≤ d.version := by
  cases l with
  | nil => exact absurd rfl h
  | cons x xs =>
    obtain ⟨d, hd, hmem, hxle, hmax⟩ := foldLatest_go xs x
    refine ⟨d, by rw [foldLatest_cons]; exact hd, ?_, ?_⟩
    · rcases hmem with h' | h'
      · simp [h']
      · exact List.mem_cons_of_mem _ h'
    · intro e he
      rcases List.mem_cons.mp he with h' | h'
      · exact h' ▸ hxle
      · exact hmax e h'

theorem foldLatest_eq_none {l : List Doc} : foldLatest l = none ↔ l = [] := by
  constructor
  · intro h
    by_contra hne
    obtain ⟨d, hd, _, _⟩ := foldLatest_spec hne
    rw [h] at hd
    exact Option.noConfusion hd
  · intro h
    subst h
    rfl

theorem foldLatest_some {l : List Doc} {d : Doc} (h : foldLatest l = some d) :
    d ∈ l ∧ ∀ e ∈ l, e.version ≤ d.version := by
  have hne : l ≠ [] := by
    intro h'
    subst h'
    exact Option.noConfusion h
  obtain ⟨d', hd', hmem, hmax⟩ := foldLatest_spec hne
  rw [h] at hd'
  cases hd'
  exact ⟨hmem, hmax⟩

theorem get_latest_some {s : State} {cid : String} {d : Doc}
    (h : get_latest_config s cid = some d) :
    d ∈ s ∧ d.config_id = cid ∧ ∀ e ∈ s, e.config_id = cid → e.version ≤ d.version := by
  obtain ⟨hmem, hmax⟩ := foldLatest_some h
  obtain ⟨hs, hcid⟩ := mem_byId.mp hmem
  exact ⟨hs, hcid, fun e hes hecid => hmax e (mem_byId.mpr ⟨hes, hecid⟩)⟩

theorem get_latest_none {s : State} {cid : String} :
    get_latest_config s cid = none ↔ byId s cid = [] :=
  foldLatest_eq_none

theorem find_version_some {s : State} {cid : String} {v : Nat} {d : Doc}
    (h : find_version s cid v = some d) :
    d ∈ s ∧ d.config_id = cid ∧ d.version = v := by
  have hmem := List.mem_of_find?_eq_some h
  have hp := List.find?_some h
  simp only [Bool.and_eq_true, beq_iff_eq] at hp
  exact ⟨hmem, hp.1, hp.2⟩

theorem create_config_ok {s s' : State} {cd : ConfigData} {ub cn : Option String}
    {now : String} {d : Doc} (h : create_config s cd ub cn now = .ok (s', d)) :
    s' = s ++ [d] ∧
    d = { config_id := cd.config_id, version := 1, app_name := cd.app_name,
          environment := cd.environment, settings := cd.settings,
          created_at := now, updated_at := now, updated_by := ub,
          change_notes := cn.getD "Initial configuration creation" } ∧
    ∀ e ∈ s, e.config_id ≠ cd.config_id := by
  unfold create_config create_config_interleaved at h
  cases hf : s.find? (fun e => e.config_id == cd.config_id) with
  | some e =>
    rw [hf] at h
    exact absurd h (by simp)
  | none =>
    rw [hf] at h
    simp only [insert_one] at h
    by_cases hc : (s.any fun e => e.config_id == cd.config_id && e.version == 1) = true
    · rw [if_pos hc] at h
      exact absurd h (by simp)
    · rw [if_neg hc] at h
      simp only [Except.ok.injEq, Prod.mk.injEq] at h
      obtain ⟨h1, h2⟩ := h
      have hnone := List.find?_eq_none.mp hf
      refine ⟨by rw [← h1, ← h2], h2.symm, fun e he => ?_⟩
      intro hcid
      exact hnone e he (by simp [hcid])

theorem update_config_ok {s s' : State} {cid : String} {ns : Json}
    {ub cn : Option String} {now : String} {d : Doc}
    (h : update_config s cid ns ub cn now = .ok (s', d)) :
    ∃ latest, get_latest_config s cid = some latest ∧ s' = s ++ [d] ∧
    d = { config_id := cid, version := latest.version + 1,
          app_name := latest.app_name, environment := latest.environment,
          settings := ns, created_at := latest.created_at, updated_at := now,
          updated_by := ub, change_notes := cn.getD "Configuration updated" } := by
  unfold update_config at h
  cases hl : get_latest_config s cid with
  | none =>
    rw [hl] at h
    exact absurd h (by simp)
  | some latest =>
    rw [hl] at h
    simp only [insert_one] at h
    by_cases hc : (s.any fun e => e.config_id == cid && e.version == latest.version + 1) = true
    · rw [if_pos hc] at h
      exact absurd h (by simp)
    · rw [if_neg hc] at h
      simp only [Except.ok.injEq, Prod.mk.injEq] at h
      obtain ⟨h1, h2⟩ := h
      exact ⟨latest, rfl, by rw [← h1, ← h2], h2.symm⟩

theorem rollback_config_ok {s s' : State} {cid : String} {tv : Nat}
    {ub : String} {cn : Option String} {now : String} {d : Doc}
    (h : rollback_config s cid tv ub cn now = .ok (s', d)) :
    ∃ target latest, find_version s cid tv = some target ∧
    get_latest_config s cid = some latest ∧ s' = s ++ [d] ∧
    d = { config_id := cid, version := latest.version + 1,
          app_name := target.app_name, environment := target.environment,
          settings := target.settings, created_at := target.created_at,
          updated_at := now, updated_by := some ub,
          change_notes := cn.getD ("Rolled back to version " ++ toString tv) } := by
  unfold rollback_config at h
  cases ht : find_version s cid tv with
  | none =>
    rw [ht] at h
    exact absurd h (by simp)
  | some target =>
    rw [ht] at h
    cases hl : get_latest_config s cid with
    | none =>
      rw [hl] at h
      exact absurd h (by simp)
    | some latest =>
      rw [hl] at h
      simp only [insert_one] at h
      by_cases hc : (s.any fun e => e.config_id == cid && e.version == latest.version + 1) = true
      · rw [if_pos hc] at h
        exact absurd h (by simp)
      · rw [if_neg hc] at h
        simp only [Except.ok.injEq, Prod.mk.injEq] at h
        obtain ⟨h1, h2⟩ := h
        exact ⟨target, latest, rfl, rfl, by rw [← h1, ← h2], h2.symm⟩

theorem latest_version_eq {s : State} {cid : String} {latest : Doc}
    (hv : versionsOf s cid = List.range' 1 (versionsOf s cid).length)
    (hl : get_latest_config s cid = some latest) :
    latest.version = (versionsOf s cid).length := by
  obtain ⟨hmem, hmax⟩ := foldLatest_some hl
  obtain ⟨n, hn⟩ : ∃ n, (versionsOf s cid).length = n := ⟨_, rfl⟩
  rw [hn] at hv
  rw [hn]
  have hv1 : latest.version ∈ List.range' 1 n := by
    rw [← hv]
    exact List.mem_map_of_mem _ hmem
  have hub := (List.mem_range'_1.mp hv1).2
  have hnpos : 0 < n := by
    rw [← hn]
    unfold versionsOf
    rw [List.length_map]
    exact List.length_pos.mpr (List.ne_nil_of_mem hmem)
  have hnm : n ∈ versionsOf s cid := by
    rw [hv]
    exact List.mem_range'_1.mpr ⟨hnpos, by omega⟩
  unfold versionsOf at hnm
  obtain ⟨e, he, hev⟩ := List.mem_map.mp hnm
  have := hmax e he
  omega

theorem versions_append_step {s : State} {cid : String} {v : Nat}
    (hvok : versionsOf s cid = List.range' 1 (versionsOf s cid).length)
    (hv : v = (versionsOf s cid).length + 1) :
    versionsOf s cid ++ [v] = List.range' 1 (versionsOf s cid ++ [v]).length := by
  obtain ⟨n, hn⟩ : ∃ n, (versionsOf s cid).length = n := ⟨_, rfl⟩
  rw [hn] at hvok hv
  subst hv
  rw [hvok, List.length_append, List.length_range']
  simp only [List.length_cons, List.length_nil]
  have h1 : n + (0 + 1) = n + 1 := by omega
  have h2 : (1 : Nat) + n = n + 1 := Nat.add_comm 1 n
  rw [h1, List.range'_1_concat, h2]

theorem reachable_inv {s : State} (h : Reachable s) :
    VersionsOK s ∧ FieldsConst s := by
  induction h with
  | init =>
    constructor
    · intro cid
      simp [versionsOf, byId]
    · intro a ha
      exact absurd ha (List.not_mem_nil a)
  | @create s s' cd ub cn now d hr hok ih =>
    obtain ⟨hs', hd, hfresh⟩ := create_config_ok hok
    have hdc : d.config_id = cd.config_id := by rw [hd]
    have hdv : d.version = 1 := by rw [hd]
    obtain ⟨ihv, ihf⟩ := ih
    subst hs'
    refine ⟨?_, ?_⟩
    · intro cid
      rw [versionsOf_append]
      by_cases hc : d.config_id = cid
      · rw [if_pos hc]
        have hbid : byId s cid = [] := by
          apply List.filter_eq_nil_iff.mpr
          intro a ha hp
          rw [beq_iff_eq] at hp
          exact hfresh a ha (by rw [hp, ← hc, hdc])
        have hvnil : versionsOf s cid = [] := by
          unfold versionsOf
          rw [hbid]
          rfl
        rw [hvnil, hdv]
        rfl
      · rw [if_neg hc]
        simpa using ihv cid
    · intro a ha b hb hab
      rcases List.mem_append.mp ha with ha' | ha'
      · rcases List.mem_append.mp hb with hb' | hb'
        · exact ihf a ha' b hb' hab
        · have hbd : b = d := by simpa using hb'
          subst hbd
          exact absurd (hab.trans hdc) (hfresh a ha')
      · have had : a = d := by simpa using ha'
        subst had
        rcases List.mem_append.mp hb with hb' | hb'
        · exact absurd ((hab.symm).trans hdc) (hfresh b hb')
        · have hbd : b = a := by simpa using hb'
          subst hbd
          exact ⟨rfl, rfl, rfl⟩
  | @update s s' cid ns ub cn now d hr hok ih =>
    obtain ⟨latest, hl, hs', hd⟩ := update_config_ok hok
    obtain ⟨hlmem, hlcid, hlmax⟩ := get_latest_some hl
    have hdc : d.config_id = cid := by rw [hd]
    have hdv : d.version = latest.version + 1 := by rw [hd]
    have hdapp : d.app_name = latest.app_name := by rw [hd]
    have hdenv : d.environment = latest.environment := by rw [hd]
    have hdcre : d.created_at = latest.created_at := by rw [hd]
    obtain ⟨ihv, ihf⟩ := ih
    subst hs'
    refine ⟨?_, ?_⟩
    · intro c
      rw [versionsOf_append]
      by_cases hc : d.config_id = c
      · rw [if_pos hc]
        have hcc : c = cid := by rw [← hc, hdc]
        subst hcc
        refine versions_append_step (ihv c) ?_
        rw [hdv, latest_version_eq (ihv c) hl]
      · rw [if_neg hc]
        simpa using ihv c
    · intro a ha b hb hab
      rcases List.mem_append.mp ha with ha' | ha'
      · rcases List.mem_append.mp hb with hb' | hb'
        · exact ihf a ha' b hb' hab
        · have hbd : b = d := by simpa using hb'
          subst hbd
          have hacid : a.config_id = latest.config_id := by
            rw [hab, hdc, hlcid]
          obtain ⟨h1, h2, h3⟩ := ihf a ha' latest hlmem hacid
          exact ⟨by rw [h1, hdapp], by rw [h2, hdenv], by rw [h3, hdcre]⟩
      · have had : a = d := by simpa using ha'
        subst had
        rcases List.mem_append.mp hb with hb' | hb'
        · have hbcid : b.config_id = latest.config_id := by
            rw [← hab, hdc, hlcid]
          obtain ⟨h1, h2, h3⟩ := ihf b hb' latest hlmem hbcid
          exact ⟨by rw [hdapp, h1], by rw [hdenv, h2], by rw [hdcre, h3]⟩
        · have hbd : b = a := by simpa using hb'
          subst hbd
          exact ⟨rfl, rfl, rfl⟩
  | @rollback s s' cid tv ub cn now d hr hok ih =>
    obtain ⟨target, latest, ht, hl, hs', hd⟩ := rollback_config_ok hok
    obtain ⟨hlmem, hlcid, hlmax⟩ := get_latest_some hl
    obtain ⟨htmem, htcid, htv⟩ := find_version_some ht
    have hdc : d.config_id = cid := by rw [hd]
    have hdv : d.version = latest.version + 1 := by rw [hd]
    have hdapp : d.app_name = target.app_name := by rw [hd]
    have hdenv : d.environment = target.environment := by rw [hd]
    have hdcre : d.created_at = target.created_at := by rw [hd]
    obtain ⟨ihv, ihf⟩ := ih
    subst hs'
    refine ⟨?_, ?_⟩
    · intro c
      rw [versionsOf_append]
      by_cases hc : d.config_id = c
      · rw [if_pos hc]
        have hcc : c = cid := by rw [← hc, hdc]
        subst hcc
        refine versions_append_step (ihv c) ?_
        rw [hdv, latest_version_eq (ihv c) hl]
      · rw [if_neg hc]
        simpa using ihv c
    · intro a ha b hb hab
      rcases List.mem_append.mp ha with ha' | ha'
      · rcases List.mem_append.mp hb with hb' | hb'
        · exact ihf a ha' b hb' hab
        · have hbd : b = d := by simpa using hb'
          subst hbd
          have hacid : a.config_id = target.config_id := by
            rw [hab, hdc, htcid]
          obtain ⟨h1, h2, h3⟩ := ihf a ha' target htmem hacid
          exact ⟨by rw [h1, hdapp], by rw [h2, hdenv], by rw [h3, hdcre]⟩
      · have had : a = d := by simpa using ha'
        subst had
        rcases List.mem_append.mp hb with hb' | hb'
        · have hbcid : b.config_id = target.config_id := by
            rw [← hab, hdc, htcid]
          obtain ⟨h1, h2, h3⟩ := ihf b hb' target htmem hbcid
          exact ⟨by rw [hdapp, h1], by rw [hdenv, h2], by rw [hdcre, h3]⟩
        · have hbd : b = a := by simpa using hb'
          subst hbd
          exact ⟨rfl, rfl, rfl⟩

theorem reachable_exS1 : Reachable exS1 :=
  @Reachable.create [] exS1 exCd (some "alice") none "t1" exDoc1
    Reachable.init (by decide)

theorem reachable_exS2 : Reachable exS2 :=
  @Reachable.update exS1 exS2 "cfg1" exSettings2 (some "bob") none "t2" exDoc2
    reachable_exS1 (by decide)

/-! ### Sorting lemmas for `query_configs` -/

theorem mem_insertAsc {x y : String} {l : List String} :
    y ∈ insertAsc x l ↔ y = x ∨ y ∈ l := by
  induction l with
  | nil => simp [insertAsc]
  | cons z zs ih =>
    by_cases h : x ≤ z
    · simp [insertAsc, h]
    · simp only [insertAsc, if_neg h, List.mem_cons, ih]
      tauto

theorem pairwise_le_insertAsc {x : String} {l : List String}
    (h : l.Pairwise (· ≤ ·)) : (insertAsc x l).Pairwise (· ≤ ·) := by
  induction l with
  | nil => simp [insertAsc]
  | cons z zs ih =>
    rcases List.pairwise_cons.mp h with ⟨hz, hzs⟩
    by_cases hx : x ≤ z
    · rw [insertAsc, if_pos hx]
      refine List.pairwise_cons.mpr ⟨?_, h⟩
      intro a ha
      rcases List.mem_cons.mp ha with h' | h'
      · exact h' ▸ hx
      · exact le_trans hx (hz a h')
    · rw [insertAsc, if_neg hx]
      refine List.pairwise_cons.mpr ⟨?_, ih hzs⟩
      intro a ha
      rcases mem_insertAsc.mp ha with h' | h'
      · exact h' ▸ le_of_not_le hx
      · exact hz a h'

theorem nodup_insertAsc {x : String} {l : List String}
    (hx : x ∉ l) (h : l.Nodup) : (insertAsc x l).Nodup := by
  induction l with
  | nil => simp [insertAsc]
  | cons z zs ih =>
    rcases List.nodup_cons.mp h with ⟨hz, hzs⟩
    have hxz : x ≠ z := fun he => hx (he ▸ List.mem_cons_self z zs)
    have hxzs : x ∉ zs := fun he => hx (List.mem_cons_of_mem z he)
    by_cases hle : x ≤ z
    · rw [insertAsc, if_pos hle]
      refine List.nodup_cons.mpr ⟨?_, h⟩
      intro hmem
      rcases List.mem_cons.mp hmem with h' | h'
      · exact hxz h'
      · exact hxzs h'
    · rw [insertAsc, if_neg hle]
      refine List.nodup_cons.mpr ⟨?_, ih hxzs hzs⟩
      intro hmem
      rcases mem_insertAsc.mp hmem with h' | h'
      · exact hxz h'.symm
      · exact hz h'

theorem mem_sortAsc {y : String} {l : List String} :
    y ∈ sortAsc l ↔ y ∈ l := by
  induction l with
  | nil => simp [sortAsc]
  | cons z zs ih =>
    simp only [sortAsc, mem_insertAsc, List.mem_cons, ih]

theorem pairwise_le_sortAsc (l : List String) :
    (sortAsc l).Pairwise (· ≤ ·) := by
  induction l with
  | nil => simp [sortAsc]
  | cons z zs ih => exact pairwise_le_insertAsc ih

theorem nodup_sortAsc {l : List String} (h : l.Nodup) :
    (sortAsc l).Nodup := by
  induction l with
  | nil => simp [sortAsc]
  | cons z zs ih =>
    rcases List.nodup_cons.mp h with ⟨hz, hzs⟩
    exact nodup_insertAsc (fun hm => hz (mem_sortAsc.mp hm)) (ih hzs)

theorem pairwise_lt_sortAsc {l : List String} (h : l.Nodup) :
    (sortAsc l).Pairwise (· < ·) :=
  ((pairwise_le_sortAsc l).and (nodup_sortAsc h)).imp
    (fun hab => lt_of_le_of_ne hab.1 hab.2)

theorem matchCriteria_congr {fa fe : Option String} {a b : Doc}
    (happ : a.app_name = b.app_name) (henv : a.environment = b.environment) :
    matchCriteria fa fe a = matchCriteria fa fe b := by
  unfold matchCriteria
  rw [happ, henv]

theorem matchCriteria_eq_spec {fa fe : Option String}
    (ha : fa ≠ some "") (he : fe ≠ some "") (d : Doc) :
    matchCriteria fa fe d = specMatches fa fe d := by
  unfold matchCriteria specMatches
  congr 1
  · cases fa with
    | none => rfl
    | some a =>
      have hne : ¬a = "" := fun h => ha (by rw [h])
      simp [hne]
  · cases fe with
    | none => rfl
    | some e =>
      have hne : ¬e = "" := fun h => he (by rw [h])
      simp [hne]

theorem byId_matched {s : State} (hf : FieldsConst s) {fa fe : Option String}
    {d : Doc} (hd : d ∈ s) (hm : matchCriteria fa fe d = true) :
    byId (s.filter (matchCriteria fa fe)) d.config_id = byId s d.config_id := by
  unfold byId
  rw [List.filter_filter]
  apply List.filter_congr
  intro a ha
  by_cases hc : (a.config_id == d.config_id) = true
  · have hcid : a.config_id = d.config_id := beq_iff_eq.mp hc
    obtain ⟨h1, h2, _⟩ := hf a ha d hd hcid
    have hma : matchCriteria fa fe a = true := by
      rw [matchCriteria_congr h1 h2]
      exact hm
    rw [hc, hma]
    rfl
  · rw [Bool.not_eq_true] at hc
    rw [hc]
    simp

/-! ### Webhook retry-loop lemmas -/

theorem tenacityLoop_reaches (responses : Nat → Option Nat) :
    ∀ (k i fuel : Nat), k < fuel →
    (∀ j, j < k →
      retryDecision (dispatch_webhook_result (responses (i + j))) = true) →
    retryDecision (dispatch_webhook_result (responses (i + k))) = false →
    (tenacityLoop responses i fuel).1 =
      .ok (dispatch_webhook_result (responses (i + k))) := by
  intro k
  induction k with
  | zero =>
    intro i fuel hk hfail hstop
    rw [Nat.add_zero] at hstop
    match fuel, hk with
    | f + 1, _ =>
      unfold tenacityLoop
      simp [hstop]
  | succ k ih =>
    intro i fuel hk hfail hstop
    have h0 : retryDecision (dispatch_webhook_result (responses i)) = true := by
      have h := hfail 0 (Nat.succ_pos k)
      rwa [Nat.add_zero] at h
    match fuel, hk with
    | f + 1, hk =>
      have hf1 : k + 1 ≤ f := Nat.lt_succ_iff.mp hk
      match f, hf1 with
      | f' + 1, _ =>
        have hrec := ih (i + 1) (f' + 1) (by omega)
          (fun j hj => by
            have h := hfail (j + 1) (by omega)
            rwa [show i + (j + 1) = i + 1 + j by omega] at h)
          (by rwa [show i + 1 + k = i + (k + 1) by omega])
        unfold tenacityLoop
        simp only [h0, if_true]
        rw [show i + (k + 1) = i + 1 + k by omega]
        exact hrec

/-! ## Claims -/

/-- C1: for every `config_id`, after any sequence of successful
create/update/rollback operations the stored version numbers are exactly
`1, ..., N` with no gaps and no repeats, where `N` is the number of
stored documents for that `config_id` (one per successful write):
`create_config` writes version 1 and `update_config`/`rollback_config`
write the current maximum plus one. -/
theorem claim1_version_sequence (s : State) (h : Reachable s) (cid : String) :
    versionsOf s cid = List.range' 1 (versionsOf s cid).length :=
  (reachable_inv h).1 cid

theorem claim1_version_sequence_witness :
    versionsOf exS2 "cfg1" = List.range' 1 (versionsOf exS2 "cfg1").length ∧
    versionsOf exS2 "cfg1" = [1, 2] :=
  ⟨claim1_version_sequence exS2 reachable_exS2 "cfg1", by decide⟩

/-- C2: when version `k` of `config_id` exists and the current maximum
version is `latest.version`, `rollback_config` inserts and returns a new
document with version `latest.version + 1`, settings equal to version
`k`'s settings, `updated_at` set to the fresh timestamp, and
`change_notes` defaulting to `"Rolled back to version k"` when the caller
omits it; when version `k` does not exist it raises a not-found
`ValueError` and writes nothing. -/
theorem claim2_rollback_semantics (s : State) (cid : String) (k : Nat)
    (ub : String) (now : String) :
    (∀ tgt latest, find_version s cid k = some tgt →
      get_latest_config s cid = some latest →
      rollback_config s cid k ub none now =
        .ok (s ++ [{ config_id := cid, version := latest.version + 1,
                     app_name := tgt.app_name, environment := tgt.environment,
                     settings := tgt.settings, created_at := tgt.created_at,
                     updated_at := now, updated_by := some ub,
                     change_notes := "Rolled back to version " ++ toString k }],
          { config_id := cid, version := latest.version + 1,
            app_name := tgt.app_name, environment := tgt.environment,
            settings := tgt.settings, created_at := tgt.created_at,
            updated_at := now, updated_by := some ub,
            change_notes := "Rolled back to version " ++ toString k }) ∧
      (∀ e ∈ s, e.config_id = cid → e.version ≤ latest.version)) ∧
    (find_version s cid k = none → ∀ cn,
      rollback_config s cid k ub cn now =
        .error (.valueError ("Version " ++ toString k ++
          " not found for config_id '" ++ cid ++ "'")) ∧
      runOp s (Op.rollback cid k ub cn now) = s) := by
  constructor
  · intro tgt latest ht hl
    have hmax := (get_latest_some hl).2.2
    constructor
    · unfold rollback_config
      rw [ht, hl]
      simp only [insert_one]
      have hc : (s.any fun e =>
          e.config_id == cid && e.version == latest.version + 1) = false := by
        apply List.any_eq_false.mpr
        intro e he hp
        simp only [Bool.and_eq_true, beq_iff_eq] at hp
        have := hmax e he hp.1
        omega
      rw [hc]
      rfl
    · intro e he hcid
      exact hmax e he hcid
  · intro hnf cn
    constructor
    · unfold rollback_config
      rw [hnf]
    · simp [runOp, applyOp, rollback_config, hnf]

theorem claim2_rollback_semantics_witness :
    rollback_config exS2 "cfg1" 1 "carol" none "t3" = .ok (exS2 ++ [exDoc3], exDoc3) ∧
    rollback_config exS2 "cfg1" 9 "carol" none "t3" =
      .error (.valueError "Version 9 not found for config_id 'cfg1'") := by
  constructor
  · have h := ((claim2_rollback_semantics exS2 "cfg1" 1 "carol" "t3").1
      exDoc1 exDoc2 (by decide) (by decide)).1
    rw [h]
    decide
  · exact ((claim2_rollback_semantics exS2 "cfg1" 9 "carol" "t3").2
      (by decide) none).1

/-- C3: the claim says a duplicate `create_config` fails with a
distinguishable already-exists error whether the duplicate is caught by
the pre-check read or by the store's uniqueness violation.  The code
contradicts its own docstring ("Raises: ValueError ... config_id already
exists") on the pre-check path: the pre-check's `ValueError` is swallowed
by the method's blanket `except Exception` handler and re-raised as the
generic `RuntimeError("Failed to create configuration: ...")`; only the
`DuplicateKeyError` race path raises the distinguishable `ValueError`.
Exactly one creation succeeds and the failing call inserts nothing. -/
theorem claim3_duplicate_create_error_kind :
    create_config [] exCd (some "alice") none "t1" = .ok (exS1, exDoc1) ∧
    create_config exS1 exCd (some "alice") none "t2" =
      .error (.runtimeError
        "Failed to create configuration: Configuration with config_id 'cfg1' already exists") ∧
    create_config_interleaved [] exS1 exCd (some "alice") none "t2" =
      .error (.valueError "Configuration with config_id 'cfg1' already exists") ∧
    runOp exS1 (Op.create exCd (some "alice") none "t2") = exS1 := by
  decide

/-- C4: `app_name`, `environment` and `created_at` are identical across
every pair of stored versions of the same `config_id` in any state
reachable by successful create/update/rollback operations (in
particular, every version carries version 1's values). -/
theorem claim4_fields_invariant (s : State) (h : Reachable s) (d e : Doc)
    (hd : d ∈ s) (he : e ∈ s) (hcid : d.config_id = e.config_id) :
    d.app_name = e.app_name ∧ d.environment = e.environment ∧
      d.created_at = e.created_at :=
  (reachable_inv h).2 d hd e he hcid

theorem claim4_fields_invariant_witness :
    exDoc1.app_name = exDoc2.app_name ∧
    exDoc1.environment = exDoc2.environment ∧
    exDoc1.created_at = exDoc2.created_at :=
  claim4_fields_invariant exS2 reachable_exS2 exDoc1 exDoc2
    (by decide) (by decide) (by decide)

/-- C5 counterexample: the claim quantifies over every optional equality
filter, but Python truthiness (`if app_name:`) makes the empty-string
filter a no-op: `query_configs` with `app_name = some ""` returns
`exDoc1` even though `exDoc1` does not match the filter by string
equality (its `app_name` is `"appX"`, not `""`), where the claim demands
no document be returned for a non-matching `config_id`. -/
theorem claim5_counterexample :
    query_configs exS1 (some "") none = [exDoc1] ∧
    specMatches (some "") none exDoc1 = false := by
  decide

/-- C5 (amended): for reachable states and filters that are absent or
non-empty strings, `query_configs` returns exactly the maximum-version
document of each `config_id` matching the filters, in strictly ascending
`config_id` order, and nothing for non-matching `config_id`s
(empty-string filters are treated by the code as absent). -/
theorem claim5_query_latest (s : State) (hs : Reachable s)
    (fa fe : Option String) (ha : fa ≠ some "") (he : fe ≠ some "") :
    (query_configs s fa fe).Pairwise
      (fun d e : Doc => d.config_id < e.config_id) ∧
    ∀ d : Doc, d ∈ query_configs s fa fe ↔
      (specMatches fa fe d = true ∧
        get_latest_config s d.config_id = some d) := by
  have hf := (reachable_inv hs).2
  constructor
  · apply List.Pairwise.filterMap
      (fun cid => foldLatest (byId (s.filter (matchCriteria fa fe)) cid))
    · intro a a' hlt b hb b' hb'
      have hbm := (foldLatest_some hb).1
      have hbm' := (foldLatest_some hb').1
      rw [(mem_byId.mp hbm).2, (mem_byId.mp hbm').2]
      exact hlt
    · exact pairwise_lt_sortAsc (List.nodup_dedup _)
  · intro d
    constructor
    · intro hd
      obtain ⟨cid, _, hfold⟩ := List.mem_filterMap.mp hd
      obtain ⟨hmem, _⟩ := foldLatest_some hfold
      obtain ⟨hmat, hcid⟩ := mem_byId.mp hmem
      obtain ⟨hds, hcrit⟩ := List.mem_filter.mp hmat
      refine ⟨by rw [← matchCriteria_eq_spec ha he]; exact hcrit, ?_⟩
      unfold get_latest_config
      rw [← byId_matched hf hds hcrit]
      rw [hcid]
      exact hfold
    · intro ⟨hspec, hlatest⟩
      have hds : d ∈ s := (get_latest_some hlatest).1
      have hcrit : matchCriteria fa fe d = true := by
        rw [matchCriteria_eq_spec ha he]
        exact hspec
      have hdm : d ∈ s.filter (matchCriteria fa fe) :=
        List.mem_filter.mpr ⟨hds, hcrit⟩
      apply List.mem_filterMap.mpr
      refine ⟨d.config_id, ?_, ?_⟩
      · apply mem_sortAsc.mpr
        apply List.mem_dedup.mpr
        exact List.mem_map_of_mem _ hdm
      · rw [byId_matched hf hds hcrit]
        exact hlatest

theorem claim5_query_latest_witness :
    exDoc2 ∈ query_configs exS2 (some "appX") none :=
  ((claim5_query_latest exS2 reachable_exS2 (some "appX") none
      (by decide) (by decide)).2 exDoc2).mpr (by decide)

/-- C6: every successful write operation only appends a new document
(never mutates or deletes an existing one), so a `(config_id, version)`
lookup that succeeded before the write returns the identical document
afterwards. -/
theorem claim6_immutability (s : State) (op : Op) (s' : State) (nd : Doc)
    (h : applyOp s op = .ok (s', nd)) (cid : String) (v : Nat) (dv : Doc)
    (hfind : find_version s cid v = some dv) :
    s' = s ++ [nd] ∧ find_version s' cid v = some dv := by
  have hshape : s' = s ++ [nd] := by
    cases op with
    | create cd ub cn now => exact (create_config_ok h).1
    | update cid' ns ub cn now =>
      obtain ⟨_, _, hs, _⟩ := update_config_ok h
      exact hs
    | rollback cid' tv ub cn now =>
      obtain ⟨_, _, _, _, hs, _⟩ := rollback_config_ok h
      exact hs
  subst hshape
  refine ⟨rfl, ?_⟩
  unfold find_version at hfind ⊢
  rw [List.find?_append, hfind]
  rfl

theorem claim6_immutability_witness :
    exS2 = exS1 ++ [exDoc2] ∧ find_version exS2 "cfg1" 1 = some exDoc1 :=
  claim6_immutability exS1 (Op.update "cfg1" exSettings2 (some "bob") none "t2")
    exS2 exDoc2 (by decide) "cfg1" 1 exDoc1 (by decide)

/-- C7: the claim (and the module's own docstring, which documents
`WEBHOOK_RETRY_ATTEMPTS` as the max-retry knob populating
`WebhookConfig.retry_attempts`) says failed deliveries retry up to the
subscriber's configured attempt count.  The decorator hardcodes
`stop_after_attempt(3)` and never reads `retry_attempts`: a subscriber
configured with `retry_attempts = 5` facing persistent 500s gets exactly
3 attempts and a `RetryError`, and the attempt budget is 3 for every
configured value.  The non-5xx terminal half of the claim does hold: a
404 response ends the delivery after a single attempt, unretried. -/
theorem claim7_retry_attempts_ignored :
    exCfg5.retry_attempts = 5 ∧
    attempts_made exCfg5 always500 = 3 ∧
    dispatch_with_retry exCfg5 always500 = .error "RetryError" ∧
    (∀ n : Nat, attempts_made { exCfg5 with retry_attempts := n } always500 = 3) ∧
    dispatch_with_retry exCfg3 always404 = .ok ⟨some 404, false⟩ ∧
    attempts_made exCfg3 always404 = 1 := by
  refine ⟨by decide, by decide, by decide, fun n => rfl, by decide, by decide⟩

/-- C8 counterexample: a delivery whose three attempts all return 500
finishes its task (the `RetryError` raised by tenacity kills the thread
before the stats update), yet neither the success nor the failure
counter changes — the claim demands exactly one counter be incremented
for a delivery that exhausted its retry attempts. -/
theorem claim8_counterexample :
    dispatch_with_retry exCfg3 always500 = .error "RetryError" ∧
    dispatch_task exCfg3 always500 ⟨3, 4⟩ = ⟨3, 4⟩ := by
  decide

/-- C8 (amended): when `dispatch_with_retry` returns (delivery succeeded,
or terminally failed with a non-retryable response) the task increments
exactly one counter; when it raises (`RetryError` after exhausting the
attempt budget) the delivery thread dies before the stats update and
neither counter changes. -/
theorem claim8_counters (cfg : WebhookConfig) (responses : Nat → Option Nat)
    (st : Stats) :
    (∀ r, dispatch_with_retry cfg responses = .ok r →
      dispatch_task cfg responses st =
        (if r.success then { st with success := st.success + 1 }
         else { st with failure := st.failure + 1 })) ∧
    (∀ e, dispatch_with_retry cfg responses = .error e →
      dispatch_task cfg responses st = st) := by
  constructor
  · intro r hr
    unfold dispatch_task
    rw [hr]
  · intro e he
    unfold dispatch_task
    rw [he]

theorem claim8_counters_witness :
    dispatch_task exCfg3 always404 ⟨0, 0⟩ = ⟨0, 1⟩ :=
  (claim8_counters exCfg3 always404 ⟨0, 0⟩).1 ⟨some 404, false⟩ (by decide)

/-- C9 counterexample: `get_config_version` catches every exception and
returns `None`, so a transient store failure while version 1 of `cfg1`
exists is observationally identical to looking up a version that was
never stored — the caller cannot tell `NotFound` from
`StoreUnavailable`, contrary to the claim. -/
theorem claim9_counterexample :
    find_version exS2 "cfg1" 1 = some exDoc1 ∧
    get_config_version exS2 (some "connection reset by peer") "cfg1" 1 = none ∧
    get_config_version exS2 none "cfg1" 99 = none := by
  decide

/-- C9 (amended): `get_config_version` returns `None` on every transient
store failure, the same value it returns for a version that does not
exist (the result of querying the empty store), so the two conditions
are not distinguishable by the caller. -/
theorem claim9_failure_indistinguishable (s : State) (msg : String)
    (cid : String) (v : Nat) :
    get_config_version s (some msg) cid v = none ∧
    get_config_version s (some msg) cid v =
      get_config_version [] none cid v :=
  ⟨rfl, rfl⟩

/-- C10: a delivery that ultimately succeeds on attempt `k` within the
retry loop's attempt budget (after `k` retryable failures) increments
the subscriber's success counter by exactly one and leaves the failure
counter unchanged — intermediate failed attempts are not counted
(final-outcome-only counting). -/
theorem claim10_final_outcome_counting (cfg : WebhookConfig)
    (responses : Nat → Option Nat) (st : Stats) (k : Nat) (hk : k < 3)
    (hfail : ∀ j, j < k →
      retryDecision (dispatch_webhook_result (responses j)) = true)
    (hsucc : (dispatch_webhook_result (responses k)).success = true) :
    dispatch_task cfg responses st = { st with success := st.success + 1 } := by
  have hres := tenacityLoop_reaches responses k 0 3 hk
    (fun j hj => by
      have h := hfail j hj
      rwa [Nat.zero_add])
    (by
      unfold retryDecision
      rw [Nat.zero_add, hsucc]
      rfl)
  unfold dispatch_task dispatch_with_retry
  rw [hres, Nat.zero_add]
  simp [hsucc]

theorem claim10_final_outcome_counting_witness :
    dispatch_task exCfg3 failTwiceThen200 ⟨0, 0⟩ = ⟨1, 0⟩ :=
  claim10_final_outcome_counting exCfg3 failTwiceThen200 ⟨0, 0⟩ 2
    (by decide) (fun j hj => by interval_cases j <;> decide) (by decide)

end Shepherd
